import Mathlib

/-
Verification of the process-supervision subsystem of gpud
(package process, file src/unnamed/part_000).

The Go code is shallowly embedded as executable Lean definitions.
External effects (the OS accepting a spawn, pipe creation, signal
delivery, context cancellation, temp-file I/O) are supplied as explicit
environment parameters, so every definition is a pure function of the
source code's control flow over those observations.
-/

namespace Gpud

/-- Go `time.Duration`, modelled as an integer nanosecond count. -/
abbrev Duration := Int

/-- RestartConfig (part_000 lines 35-42): configuration for process restart.
`limit` is the Go `int` field `Limit` (0 = unlimited by the spec). -/
structure RestartConfig where
  onError : Bool
  limit : Int
  interval : Duration
deriving DecidableEq, Repr

/-- Modelled from the spec (section 6): the construction option set
`{outputSink, environment, scriptWrap, restartPolicy}`. The options file
defining Go's `Op`/`OpOption` is not under src/, but every field is read
directly by `New` in part_000 (op.runAsBashScript, op.envs, op.outputFile,
op.restartConfig), so the record mirrors those four fields. `outputFile`
is an opaque resource id (`Option Nat`), present or absent. -/
structure Op where
  runAsBashScript : Bool
  envs : List String
  outputFile : Option Nat
  restartConfig : Option RestartConfig
deriving DecidableEq, Repr

/-- Construction errors returned by `New` (part_000 lines 70-111).
`tempFile` collapses the temp-file create/write I/O failures
(lines 87-111), which are returned verbatim in Go. -/
inductive NewErr where
  | noCommands
  | invalidBatch
  | commandNotFound (cmd : String)
  | tempFile (msg : String)
deriving DecidableEq, Repr

/-- The state of a `process` struct (part_000 lines 44-63) as far as the
claims observe it. `cmd` models the `*exec.Cmd` pointer (none = nil).
`errcSent` is the sequence of values sent on the `errc` channel and
`errcClosed` whether anyone ever closed it (the source never does).
`pid` is the int32 slot read by `PID()`. `ctxCancelled` models whether
the internal lifecycle context has been cancelled. Go's zero values give
the initial `pid = 0`, nil readers and nil cmd. -/
structure ProcessRec where
  cmd : Option Unit
  errcCap : Int
  errcSent : List (Option String)
  errcClosed : Bool
  pid : Int
  commandArgs : List String
  envs : List String
  runBashFile : Option String
  outputFile : Option Nat
  stdoutReader : Option Nat
  stderrReader : Option Nat
  restartConfig : Option RestartConfig
  ctxCancelled : Bool
deriving DecidableEq, Repr

/-- Characters of a string before its first space. -/
def leadingTokenChars : List Char → List Char
  | [] => []
  | c :: rest => if c = ' ' then [] else c :: leadingTokenChars rest

/-- Go `strings.Split(s, " ")[0]` (part_000 line 77): the first element
of splitting on a single space is exactly the prefix of s before its
first space (the whole of s when it has no space, and "" for ""), which
is what this computes. -/
def leadingToken (s : String) : String :=
  String.mk (leadingTokenChars s.data)

/-- Outcome of the validation loop of `New` (part_000 lines 76-81):
`panic` models the Go index-out-of-range panic on `args[0]` when a
command is the empty token list. -/
inductive CheckResult where
  | panic
  | notFound (cmd : String)
  | ok
deriving DecidableEq, Repr

/-- The loop `for _, args := range commands` of `New` (part_000 lines
76-81): for each command, take `args[0]`, split off its leading token,
and fail if `commandExists` (exec.LookPath, line 330-336, supplied here
as the environment `lookPath`) does not resolve it. Indexing `args[0]`
on an empty command is a runtime panic, modelled as `.panic`. -/
def checkCommands (lookPath : String → Bool) : List (List String) → CheckResult
  | [] => .ok
  | args :: rest =>
    match args with
    | [] => .panic
    | a :: _ =>
      if lookPath (leadingToken a) then checkCommands lookPath rest
      else .notFound (leadingToken a)

/-- Environment for the temp-file step of `New` (part_000 lines 85-112):
`ioOK` is whether CreateTemp and all writes succeed (their errors are
returned verbatim in Go and collapsed to one `tempFile` error here);
`name` is the allocated file name. Script content itself is not modelled:
no claim observes it. -/
structure TempEnv where
  ioOK : Bool
  name : String
deriving DecidableEq, Repr

/-- The errc buffer computation of `New` (part_000 lines 114-117):
capacity 1, overridden to `Limit` when a restart config is present with
OnError set and a positive Limit. -/
def errcBufferOf (cfg : Option RestartConfig) : Int :=
  match cfg with
  | some c => if c.onError = true ∧ 0 < c.limit then c.limit else 1
  | none => 1

/-- Modelled from the spec (section 4.1): the documented queue capacity,
`max(1, restartLimit)` when restart-on-error is enabled with a positive
limit, else 1. Kept separate from `errcBufferOf` (the code's formula) so
the two can be compared. -/
def specCapacity (cfg : Option RestartConfig) : Int :=
  match cfg with
  | some c => if c.onError = true ∧ 0 < c.limit then max 1 c.limit else 1
  | none => 1

/-- Result of `New`: a constructed process, a construction error, or the
runtime panic of claim C9 (which is not an error return at all). -/
inductive NewResult where
  | panic
  | err (e : NewErr)
  | ok (p : ProcessRec)
deriving DecidableEq, Repr

/-- New (part_000 lines 65-128), with `applyOpts` (whose source file is
not under src/ and which no claim observes) elided. Checks in source
order: empty batch (line 70), multi-command without bash-script mode
(line 73), command lookup (lines 76-81); then the temp-file step (lines
85-112, failures collapsed into one `tempFile` error), the argv
computation (lines 97 and 100-104: with a bash file the argv is
`bash file`, otherwise the loop leaves the last command as argv), the
errc buffer (lines 114-117) and the struct literal (lines 118-127,
remaining fields at Go zero values). -/
def NewGo (lookPath : String → Bool) (temp : TempEnv)
    (commands : List (List String)) (op : Op) : NewResult :=
  if commands.length = 0 then .err .noCommands
  else if 1 < commands.length ∧ op.runAsBashScript = false then .err .invalidBatch
  else
    match checkCommands lookPath commands with
    | .panic => .panic
    | .notFound c => .err (.commandNotFound c)
    | .ok =>
      if op.runAsBashScript = true ∧ temp.ioOK = false then .err (.tempFile temp.name)
      else
        let bashFile : Option String :=
          if op.runAsBashScript then some temp.name else none
        let cmdArgs : List String :=
          match bashFile with
          | some nm => ["bash", nm]
          | none => commands.getLastD []
        .ok
          { cmd := none
            errcCap := errcBufferOf op.restartConfig
            errcSent := []
            errcClosed := false
            pid := 0
            commandArgs := cmdArgs
            envs := op.envs
            runBashFile := bashFile
            outputFile := op.outputFile
            stdoutReader := none
            stderrReader := none
            restartConfig := op.restartConfig
            ctxCancelled := false }

/-- Go's conversion to int32 (part_000 line 180 stores
`int32(p.cmd.Process.Pid)`). -/
def toInt32 (n : Int) : Int := (n + 2 ^ 31) % 2 ^ 32 - 2 ^ 31

/-- Environment for one spawn attempt: whether pipe creation fails
(part_000 lines 166-174; the two pipe errors are collapsed, failing
before either reader field is set), whether `cmd.Start()` fails (line
177), the OS pid assigned on success (line 180), and the pipe ids. -/
structure SpawnEnv where
  pipeFail : Bool
  startErr : Bool
  osPid : Int
  stdoutPipeId : Nat
  stderrPipeId : Nat
deriving DecidableEq, Repr

/-- startCommand (part_000 lines 155-183). It first overwrites `p.cmd`
with the fresh exec.Cmd (line 157) — even if the later Start fails, the
cmd field stays non-nil. In sink mode (outputFile set) both streams go
to the sink and the reader fields are untouched; in pipe mode the two
reader fields are set. Only after `cmd.Start()` succeeds is the pid slot
overwritten (line 180). Returns the updated record and whether an error
was returned. -/
def startCommandGo (env : SpawnEnv) (p0 : ProcessRec) : ProcessRec × Bool :=
  let p := { p0 with cmd := some () }
  match p0.outputFile with
  | some _ =>
    if env.startErr then (p, true)
    else ({ p with pid := toInt32 env.osPid }, false)
  | none =>
    if env.pipeFail then (p, true)
    else if env.startErr then
      ({ p with stdoutReader := some env.stdoutPipeId,
                stderrReader := some env.stderrPipeId }, true)
    else
      ({ p with stdoutReader := some env.stdoutPipeId,
                stderrReader := some env.stderrPipeId,
                pid := toInt32 env.osPid }, false)

/-- Errors of Start (part_000 lines 130-153): the already-started guard
of line 134, or a spawn failure propagated from startCommand. -/
inductive StartErr where
  | alreadyStarted
  | spawnFailed
deriving DecidableEq, Repr

/-- Start (part_000 lines 130-153). Under the exclusive lock: if a cmd
handle already exists, fail with the already-started error and touch
nothing. Otherwise derive a fresh cancellable child context (modelled by
resetting `ctxCancelled`) and run startCommand; on its failure return
the error (note the cmd field was already overwritten by startCommand).
The launch of the watcher goroutine has no effect on the record. -/
def StartGo (env : SpawnEnv) (p : ProcessRec) : ProcessRec × Option StartErr :=
  match p.cmd with
  | some _ => (p, some .alreadyStarted)
  | none =>
    let r := startCommandGo env { p with ctxCancelled := false }
    if r.2 then (r.1, some .spawnFailed) else (r.1, none)

/-- Outcome of `cmd.Process.Signal(SIGTERM)` in Stop (part_000 lines
264-270): delivered, or the "os: process already finished" error (the
only error treated as `finished = true`), or any other error. -/
inductive SigOutcome where
  | delivered
  | alreadyFinished
  | failed
deriving DecidableEq, Repr

/-- Errors returned by Stop: the not-started guard (line 258), the
caller context's error returned from the select (line 275), or the
script-file removal error (line 286). -/
inductive StopErr where
  | notStarted
  | ctxErr (msg : String)
  | removeErr (msg : String)
deriving DecidableEq, Repr

/-- Stop (part_000 lines 253-291). If no cmd handle, fail with the
not-started error. Otherwise cancel the internal lifecycle (line 261).
`finished` is true only when the SIGTERM call reports the process
already finished (lines 263-270). When not finished, the source enters
`select { case <-p.ctx.Done(): return ctx.Err(); case <-time.After(3s): ... }`
(lines 272-281); since `p.cancel()` was invoked at line 261, `p.ctx.Done()`
is already closed when the select runs, so this branch deterministically
returns the caller context's error (often nil) at once — the 3-second
force-kill arm cannot fire — and the function never reaches the cleanup
below. When finished: if a bash script file exists, sync, close, and
return the RemoveAll error, leaving `cmd` untouched (lines 283-287);
otherwise reset `cmd` to nil and return nil (lines 289-290). -/
def StopGo (sig : SigOutcome) (callerCtxErr : Option String)
    (removeResult : Option String) (p : ProcessRec) : ProcessRec × Option StopErr :=
  match p.cmd with
  | none => (p, some .notStarted)
  | some _ =>
    let q := { p with ctxCancelled := true }
    if sig = .alreadyFinished then
      match q.runBashFile with
      | some _ => (q, removeResult.map .removeErr)
      | none => ({ q with cmd := none }, none)
    else
      (q, callerCtxErr.map .ctxErr)

/-- The watcher's publish `p.errc <- err` (part_000 lines 202 and 206),
as a record effect: append the sent value to the channel history. -/
def publishGo (err : Option String) (p : ProcessRec) : ProcessRec :=
  { p with errcSent := p.errcSent ++ [err] }

/-- One externally observable operation on a process record, with its
environment observations. `observeExit` is the watcher publishing one
attempt's termination error; `respawn` is the watcher's own
startCommand call at part_000 line 244. -/
inductive OpEvent where
  | start (env : SpawnEnv)
  | stop (sig : SigOutcome) (callerCtxErr : Option String) (removeResult : Option String)
  | observeExit (err : Option String)
  | respawn (env : SpawnEnv)
deriving DecidableEq, Repr

/-- Apply one operation's state effect, each delegated to the embedding
of the corresponding source function. -/
def applyEvent (p : ProcessRec) : OpEvent → ProcessRec
  | .start env => (StartGo env p).1
  | .stop sig ce re => (StopGo sig ce re p).1
  | .observeExit err => publishGo err p
  | .respawn env => (startCommandGo env p).1

/-- Run a sequence of operations from a starting record. -/
def runEvents (p : ProcessRec) : List OpEvent → ProcessRec
  | [] => p
  | e :: t => runEvents (applyEvent p e) t

/-- Whether a spawn attempt is accepted by the OS in the given record:
in sink mode only `cmd.Start()` must succeed, in pipe mode pipe creation
must also succeed (mirrors the branches of `startCommandGo`). -/
def spawnAccepted (p : ProcessRec) (env : SpawnEnv) : Bool :=
  match p.outputFile with
  | some _ => !env.startErr
  | none => !env.pipeFail && !env.startErr

/-- The pid (as recorded, after the int32 cast) that one event writes
into the pid slot: empty when the event records no spawn. -/
def spawnedPids (p : ProcessRec) : OpEvent → List Int
  | .start env =>
    match p.cmd with
    | some _ => []
    | none => if spawnAccepted p env then [toInt32 env.osPid] else []
  | .respawn env => if spawnAccepted p env then [toInt32 env.osPid] else []
  | .stop _ _ _ => []
  | .observeExit _ => []

/-- All pids recorded by the accepted spawns along a run, in order. -/
def acceptedPids (p : ProcessRec) : List OpEvent → List Int
  | [] => []
  | e :: t => spawnedPids p e ++ acceptedPids (applyEvent p e) t

/-- The termination errors of the `observeExit` events of a run, in
order: exactly the values the watcher sends on errc. -/
def observedErrs : List OpEvent → List (Option String)
  | [] => []
  | .observeExit err :: t => err :: observedErrs t
  | .start _ :: t => observedErrs t
  | .stop _ _ _ :: t => observedErrs t
  | .respawn _ :: t => observedErrs t

/-- What the watcher observes from the select of part_000 lines 197-236:
either the lifecycle context is done first (line 198; the subsequent
`<-errc` yields the error `cmd.Wait` returned), or `cmd.Wait` returns
first with the given error (line 205; none = clean exit). -/
inductive WaitObs where
  | cancelled (err : Option String)
  | exited (err : Option String)
deriving DecidableEq, Repr

/-- Environment for one iteration of the watcher loop: the wait
observation, whether the restart-interval select (lines 238-242) sees
the lifecycle cancelled first, and whether the restart's startCommand
(line 244) succeeds. The latter two are consulted only when the loop
decides to continue. -/
structure IterEnv where
  wait : WaitObs
  intervalCancelled : Bool
  respawnOK : Bool
deriving DecidableEq, Repr

/-- Observable events of the watcher loop: a publish on the errc queue,
or a successful re-spawn starting the next attempt. -/
inductive Event where
  | publish (err : Option String)
  | spawn
deriving DecidableEq, Repr

/-- cmdWait (part_000 lines 189-251) as a function from the per-iteration
environment observations to the emitted event trace. In the cancelled
branch it publishes the wait error and returns (lines 198-203). In the
exited branch it publishes unconditionally (line 206), then: a nil error
is terminal (lines 208-211); no restart config or OnError unset is
terminal (lines 227-230); a positive Limit already reached by
restartCount is terminal (lines 232-235); a cancellation during the
interval select is terminal with no further publish (lines 238-242); a
failed re-spawn is terminal (lines 244-247); otherwise the loop
continues with restartCount+1 (line 249). The classification logging of
lines 213-225 has no control-flow effect and is not modelled. An
exhausted environment list models an attempt still in flight. -/
def cmdWaitGo (cfg : Option RestartConfig) : Nat → List IterEnv → List Event
  | _, [] => []
  | restartCount, iter :: rest =>
    match iter.wait with
    | .cancelled err => [.publish err]
    | .exited err =>
      .publish err ::
        (match err with
         | none => []
         | some _ =>
           match cfg with
           | none => []
           | some c =>
             if c.onError = false then []
             else if 0 < c.limit ∧ c.limit ≤ (restartCount : Int) then []
             else if iter.intervalCancelled then []
             else if iter.respawnOK = false then []
             else .spawn :: cmdWaitGo cfg (restartCount + 1) rest)

/-- The restart decision function as the spec states it (section 4.3):
true iff a policy is configured, OnError is set, the attempt error is
non-nil, and the limit is non-positive or not yet reached. -/
def shouldRestart (cfg : Option RestartConfig) (attemptErr : Option String)
    (restartCount : Nat) : Bool :=
  match cfg with
  | none => false
  | some c =>
    c.onError && attemptErr.isSome &&
      (decide (c.limit ≤ 0) || decide ((restartCount : Int) < c.limit))

/-- The sequence of errors published on the errc queue by a trace. -/
def publishedErrs : List Event → List (Option String)
  | [] => []
  | .publish e :: t => e :: publishedErrs t
  | .spawn :: t => publishedErrs t

/-- Number of publishes in a trace. -/
def publishCount (t : List Event) : Nat := (publishedErrs t).length

/-- The termination error carried by a wait observation (published in
both branches of the watcher's select). -/
def waitErr : WaitObs → Option String
  | .cancelled e => e
  | .exited e => e

/-- Alternation check: starting in the `expectPublish` phase, the trace
must alternate publish, spawn, publish, spawn, ... (any point may be the
end). This encodes: the trace opens with a publish, every spawn is
preceded by exactly one fresh publish, and no two publishes occur
without a spawn between them. -/
def shapeOK : List Event → Bool → Bool
  | [], _ => true
  | .publish _ :: t, true => shapeOK t false
  | .spawn :: t, false => shapeOK t true
  | .publish _ :: _, false => false
  | .spawn :: _, true => false

/-- An always-failing, never-cancelled, always-respawnable iteration
environment (the C1 scenario: every attempt exits non-zero). -/
def failIter (msg : String) : IterEnv :=
  { wait := .exited (some msg), intervalCancelled := false, respawnOK := true }

/-- A process record as constructed by New for a single direct command
with no options: used as a concrete base point by witnesses. -/
def sampleProc : ProcessRec :=
  { cmd := none
    errcCap := 1
    errcSent := []
    errcClosed := false
    pid := 0
    commandArgs := ["echo", "hello"]
    envs := []
    runBashFile := none
    outputFile := none
    stdoutReader := none
    stderrReader := none
    restartConfig := none
    ctxCancelled := false }

/-- sampleProc after a successful spawn recorded a cmd handle. -/
def startedProc : ProcessRec :=
  { sampleProc with cmd := some (), pid := 7 }

/-- startedProc in script-wrap mode (a bash file was allocated). -/
def bashProc : ProcessRec :=
  { startedProc with runBashFile := some "/tmp/tmpbash123.bash" }

/-- A spawn environment in which the OS accepts the spawn with the given
pid: no pipe-creation failure and no start failure. -/
def okSpawn (pid : Int) : SpawnEnv :=
  { pipeFail := false, startErr := false, osPid := pid, stdoutPipeId := 0, stderrPipeId := 1 }

/-- An always-failing iteration with restarts available and the limit
reached is terminal: one publish, nothing more. -/
lemma cmdWaitGo_failIter_stop (c : RestartConfig) (hOn : c.onError = true)
    (msg : String) (r : Nat) (hr : 0 < c.limit ∧ c.limit ≤ (r : Int))
    (rest : List IterEnv) :
    cmdWaitGo (some c) r (failIter msg :: rest) = [.publish (some msg)] := by
  simp [cmdWaitGo, failIter, hOn, hr]

/-- An always-failing iteration below the limit publishes, re-spawns and
continues with the counter incremented. -/
lemma cmdWaitGo_failIter_continue (c : RestartConfig) (hOn : c.onError = true)
    (msg : String) (r : Nat) (hr : (r : Int) < c.limit ∨ c.limit ≤ 0)
    (rest : List IterEnv) :
    cmdWaitGo (some c) r (failIter msg :: rest)
      = .publish (some msg) :: .spawn :: cmdWaitGo (some c) (r + 1) rest := by
  have h : ¬ (0 < c.limit ∧ c.limit ≤ (r : Int)) := by omega
  simp [cmdWaitGo, failIter, hOn, h]

/-- Publish count of the watcher on n always-failing attempts, from
restart counter r: one publish per attempt until the counter passes the
positive limit. -/
lemma publishCount_cmdWaitGo_fail (c : RestartConfig) (hOn : c.onError = true)
    (hL : 0 < c.limit) (msg : String) :
    ∀ (n r : Nat), (r : Int) ≤ c.limit →
      publishCount (cmdWaitGo (some c) r (List.replicate n (failIter msg)))
        = min n ((c.limit - r).toNat + 1) := by
  intro n
  induction n with
  | zero => intro r _; simp [cmdWaitGo, publishCount, publishedErrs]
  | succ k ih =>
    intro r hr
    rw [List.replicate_succ]
    by_cases hstop : c.limit ≤ (r : Int)
    · rw [cmdWaitGo_failIter_stop c hOn msg r ⟨hL, hstop⟩]
      simp only [publishCount, publishedErrs, List.length_cons, List.length_nil]
      omega
    · rw [cmdWaitGo_failIter_continue c hOn msg r (by omega)]
      have h2 : publishCount (Event.publish (some msg) :: .spawn ::
            cmdWaitGo (some c) (r + 1) (List.replicate k (failIter msg)))
          = publishCount (cmdWaitGo (some c) (r + 1) (List.replicate k (failIter msg))) + 1 := by
        simp [publishCount, publishedErrs]
      rw [h2, ih (r + 1) (by omega)]
      push_cast
      omega

/-- A watcher iteration observing a normal exit either terminates after
its publish or publishes, re-spawns and recurses. -/
lemma cmdWaitGo_exited_cases (cfg : Option RestartConfig) (r : Nat)
    (e : Option String) (ic ro : Bool) (rest : List IterEnv) :
    cmdWaitGo cfg r (⟨.exited e, ic, ro⟩ :: rest) = [.publish e] ∨
    cmdWaitGo cfg r (⟨.exited e, ic, ro⟩ :: rest)
      = .publish e :: .spawn :: cmdWaitGo cfg (r + 1) rest := by
  simp only [cmdWaitGo]
  cases e with
  | none => left; rfl
  | some m =>
    cases cfg with
    | none => left; rfl
    | some c =>
      by_cases h1 : c.onError = false
      · left; simp [h1]
      · by_cases h2 : 0 < c.limit ∧ c.limit ≤ (r : Int)
        · left; simp [h1, h2]
        · by_cases h3 : ic = true
          · left; simp [h1, h2, h3]
          · by_cases h4 : ro = false
            · left; simp [h1, h2, h3, h4]
            · right; simp [h1, h2, h3, h4]

/-- The published errors of any watcher run are exactly the termination
errors of the first k attempts, in attempt order, for some k bounded by
the number of available attempts. -/
lemma publishedErrs_take (cfg : Option RestartConfig) :
    ∀ (env : List IterEnv) (r : Nat), ∃ k, k ≤ env.length ∧
      publishedErrs (cmdWaitGo cfg r env)
        = (env.take k).map (fun it => waitErr it.wait) := by
  intro env
  induction env with
  | nil => intro r; exact ⟨0, by simp, by simp [cmdWaitGo, publishedErrs]⟩
  | cons iter rest ih =>
    intro r
    obtain ⟨w, ic, ro⟩ := iter
    cases w with
    | cancelled e =>
      refine ⟨1, by simp, ?_⟩
      simp [cmdWaitGo, publishedErrs, waitErr]
    | exited e =>
      rcases cmdWaitGo_exited_cases cfg r e ic ro rest with h | h
      · refine ⟨1, by simp, ?_⟩
        rw [h]
        simp [publishedErrs, waitErr]
      · obtain ⟨k, hk, heq⟩ := ih (r + 1)
        refine ⟨k + 1, by simpa using hk, ?_⟩
        rw [h]
        simp only [publishedErrs, List.take_succ_cons, List.map_cons, waitErr]
        exact congrArg _ heq

/-- Every watcher trace alternates publish, spawn, publish, spawn, ...
starting with a publish. -/
lemma shapeOK_cmdWaitGo (cfg : Option RestartConfig) :
    ∀ (env : List IterEnv) (r : Nat), shapeOK (cmdWaitGo cfg r env) true = true := by
  intro env
  induction env with
  | nil => intro r; rfl
  | cons iter rest ih =>
    intro r
    obtain ⟨w, ic, ro⟩ := iter
    cases w with
    | cancelled e => rfl
    | exited e =>
      rcases cmdWaitGo_exited_cases cfg r e ic ro rest with h | h
      · rw [h]; rfl
      · rw [h]
        simp only [shapeOK]
        exact ih (r + 1)

/-- A watcher iteration whose restart-interval wait is won by lifecycle
cancellation ends the loop right after its publish, for any
configuration. -/
lemma cmdWaitGo_interval_cancelled (cfg : Option RestartConfig) (r : Nat)
    (msg : String) (ro : Bool) (rest : List IterEnv) :
    cmdWaitGo cfg r (⟨.exited (some msg), true, ro⟩ :: rest)
      = [.publish (some msg)] := by
  rcases cmdWaitGo_exited_cases cfg r (some msg) true ro rest with h | h
  · exact h
  · exfalso
    simp only [cmdWaitGo] at h
    cases cfg with
    | none => simp at h
    | some c =>
      by_cases h1 : c.onError = false
      · simp [h1] at h
      · by_cases h2 : 0 < c.limit ∧ c.limit ≤ (r : Int)
        · simp [h1, h2] at h
        · simp [h1, h2] at h

/-- C1, counterexample: with the restart policy of the claim
(onError true, limit 3, interval 100ms) and a command that exits
non-zero on every attempt (spawns succeeding, no cancellation), the
watcher publishes 4 ExitReports — one for the initial attempt and one
per restart — not the 3 the claim states. -/
theorem C1_counterexample :
    publishCount (cmdWaitGo (some { onError := true, limit := 3, interval := 100000000 }) 0
        (List.replicate 4 (failIter "exit status 1"))) = 4 ∧
    publishCount (cmdWaitGo (some { onError := true, limit := 3, interval := 100000000 }) 0
        (List.replicate 4 (failIter "exit status 1"))) ≠ 3 := by
  constructor <;> decide

/-- C1, amended: for a supervised command that exits non-zero on every
attempt under a restart policy with onError true and positive limit L,
the watcher publishes exactly L + 1 ExitReports (one per attempt: the
initial run plus L restarts), all with non-nil error, and then stops
publishing — the count is L + 1 for every number n ≥ L + 1 of available
failing attempts. -/
theorem C1_amended (c : RestartConfig) (msg : String) (n : Nat)
    (hOn : c.onError = true) (hL : 0 < c.limit) (hn : c.limit.toNat + 1 ≤ n) :
    publishCount (cmdWaitGo (some c) 0 (List.replicate n (failIter msg)))
      = c.limit.toNat + 1 ∧
    ∀ e ∈ publishedErrs (cmdWaitGo (some c) 0 (List.replicate n (failIter msg))),
      e = some msg := by
  constructor
  · rw [publishCount_cmdWaitGo_fail c hOn hL msg n 0 (by omega)]
    omega
  · intro e he
    obtain ⟨k, hk, heq⟩ := publishedErrs_take (some c) (List.replicate n (failIter msg)) 0
    rw [heq, List.take_replicate, List.map_replicate] at he
    have : waitErr (failIter msg).wait = some msg := rfl
    rw [this] at he
    exact List.eq_of_mem_replicate he

/-- C1, witness for the amended theorem at a concrete policy: limit 2,
nine failing attempts available, exactly 3 reports, all non-nil. -/
theorem C1_witness :
    publishCount (cmdWaitGo (some { onError := true, limit := 2, interval := 50 }) 0
        (List.replicate 9 (failIter "boom"))) = 3 ∧
    ∀ e ∈ publishedErrs (cmdWaitGo (some { onError := true, limit := 2, interval := 50 }) 0
        (List.replicate 9 (failIter "boom"))), e = some "boom" := by
  have h := C1_amended { onError := true, limit := 2, interval := 50 } "boom" 9
    rfl (by decide) (by decide)
  exact h

/-- C2: after an attempt is observed to exit (not via lifecycle
cancellation) with error attemptErr at restart counter restartCount,
and with the restart interval uncancelled and the OS accepting the
re-spawn, the watcher re-spawns if and only if
shouldRestart(attemptErr, restartCount) holds — and in full generality a
re-spawn happens exactly when the attempt exited normally, shouldRestart
holds, the interval wait was not cancelled, and the re-spawn succeeded.
In particular a nil termination error is terminal and never restarted,
and without a restart policy the loop ends after the first exit. -/
theorem C2_restart_decision (cfg : Option RestartConfig) (r : Nat)
    (iter : IterEnv) (rest : List IterEnv) :
    ((∃ tail, cmdWaitGo cfg r (iter :: rest)
        = .publish (waitErr iter.wait) :: .spawn :: tail) ↔
      (∃ e, iter.wait = .exited e ∧ shouldRestart cfg e r = true ∧
        iter.intervalCancelled = false ∧ iter.respawnOK = true)) ∧
    (∀ e, iter.wait = .exited e → shouldRestart cfg e r = false →
      cmdWaitGo cfg r (iter :: rest) = [.publish e]) ∧
    (iter.wait = .exited none → cmdWaitGo cfg r (iter :: rest) = [.publish none]) ∧
    (cfg = none → cmdWaitGo cfg r (iter :: rest) = [.publish (waitErr iter.wait)]) := by
  obtain ⟨w, ic, ro⟩ := iter
  cases w with
  | cancelled e =>
    refine ⟨?_, ?_, ?_, ?_⟩
    · constructor
      · rintro ⟨tail, h⟩
        simp only [cmdWaitGo] at h
        simp at h
      · rintro ⟨e', h, -⟩
        simp at h
    · intro e' h
      simp at h
    · intro h
      simp at h
    · intro h
      rfl
  | exited e =>
    have hsr_none : shouldRestart cfg none r = false := by
      cases cfg <;> simp [shouldRestart]
    have hterm : shouldRestart cfg e r = false →
        cmdWaitGo cfg r (⟨.exited e, ic, ro⟩ :: rest) = [.publish e] := by
      intro hsr
      cases e with
      | none => cases cfg <;> rfl
      | some m =>
        cases cfg with
        | none => rfl
        | some c =>
          simp only [shouldRestart, Option.isSome_some, Bool.and_true,
            Bool.and_eq_false_iff, decide_eq_false_iff_not, Bool.or_eq_false_iff,
            not_lt, not_le] at hsr
          rcases hsr with h1 | ⟨h2, h3⟩
          · simp [cmdWaitGo, h1]
          · have hc : 0 < c.limit ∧ c.limit ≤ (r : Int) := by omega
            simp only [cmdWaitGo]
            split
            · simp
            · simp [hc]
    refine ⟨?_, ?_, ?_, ?_⟩
    · constructor
      · rintro ⟨tail, h⟩
        cases e with
        | none =>
          rw [hterm hsr_none] at h
          simp at h
        | some m =>
          cases cfg with
          | none =>
            have heq : cmdWaitGo none r (⟨.exited (some m), ic, ro⟩ :: rest)
                = [.publish (some m)] := rfl
            rw [heq] at h
            simp at h
          | some c =>
            by_cases h1 : c.onError = false
            · have heq : cmdWaitGo (some c) r (⟨.exited (some m), ic, ro⟩ :: rest)
                  = [.publish (some m)] := by simp [cmdWaitGo, h1]
              rw [heq] at h
              simp at h
            · by_cases h2 : 0 < c.limit ∧ c.limit ≤ (r : Int)
              · have heq : cmdWaitGo (some c) r (⟨.exited (some m), ic, ro⟩ :: rest)
                    = [.publish (some m)] := by simp [cmdWaitGo, h1, h2]
                rw [heq] at h
                simp at h
              · by_cases h3 : ic = true
                · have heq := cmdWaitGo_interval_cancelled (some c) r m ro rest
                  rw [h3, heq] at h
                  simp at h
                · by_cases h4 : ro = false
                  · have heq : cmdWaitGo (some c) r (⟨.exited (some m), ic, ro⟩ :: rest)
                        = [.publish (some m)] := by simp [cmdWaitGo, h1, h2, h3, h4]
                    rw [heq] at h
                    simp at h
                  · refine ⟨some m, rfl, ?_, by simpa using h3, by simpa using h4⟩
                    simp only [shouldRestart, Option.isSome_some, Bool.and_true]
                    simp only [Bool.not_eq_false] at h1
                    rw [h1]
                    simp only [Bool.true_and, Bool.or_eq_true, decide_eq_true_eq]
                    omega
      · rintro ⟨e', he', hsr, hic, hro⟩
        have hee : e = e' := by simpa using he'
        subst hee
        cases e with
        | none => rw [hsr_none] at hsr; exact absurd hsr (by simp)
        | some m =>
          cases cfg with
          | none => simp [shouldRestart] at hsr
          | some c =>
            simp only [shouldRestart, Option.isSome_some, Bool.and_true,
              Bool.and_eq_true, Bool.or_eq_true, decide_eq_true_eq] at hsr
            obtain ⟨h1, h2⟩ := hsr
            have hc : ¬ (0 < c.limit ∧ c.limit ≤ (r : Int)) := by omega
            have hic' : ic = false := by simpa using hic
            have hro' : ro = true := by simpa using hro
            subst hic'
            subst hro'
            refine ⟨cmdWaitGo (some c) (r + 1) rest, ?_⟩
            simp [cmdWaitGo, h1, hc, waitErr]
    · intro e' he'
      have hee : e = e' := by simpa using he'
      subst hee
      exact hterm
    · intro h
      have hee : e = none := by simpa using h
      subst hee
      exact hterm hsr_none
    · rintro rfl
      cases e <;> rfl

/-- C2, witness: with no restart policy the watcher that observes a
failing exit ends after publishing it, matching shouldRestart = false. -/
theorem C2_witness :
    cmdWaitGo none 0 (⟨.exited (some "exit status 1"), false, true⟩ :: []) =
      [.publish (some "exit status 1")] :=
  (C2_restart_decision none 0 ⟨.exited (some "exit status 1"), false, true⟩ []).2.2.2 rfl

/-- C3: every watcher-loop attempt publishes exactly one ExitReport —
unconditionally, in both the cancellation-observed and the normal-exit
branch of the wait — in attempt order, and always before the next
restart's spawn step: traces alternate publish, spawn, publish, ... and
the published errors are exactly the termination errors of the first k
processed attempts; a lifecycle cancellation observed during the wait
still publishes that attempt's report and then ends the loop, and a
cancellation winning the restart-interval race ends the loop with no
further publish. -/
theorem C3_publish_discipline :
    (∀ (cfg : Option RestartConfig) (r : Nat) (env : List IterEnv),
        shapeOK (cmdWaitGo cfg r env) true = true) ∧
    (∀ (cfg : Option RestartConfig) (r : Nat) (env : List IterEnv), ∃ k, k ≤ env.length ∧
        publishedErrs (cmdWaitGo cfg r env) = (env.take k).map (fun it => waitErr it.wait)) ∧
    (∀ (cfg : Option RestartConfig) (r : Nat) (err : Option String) (ic ro : Bool)
        (rest : List IterEnv),
        cmdWaitGo cfg r (⟨.cancelled err, ic, ro⟩ :: rest) = [.publish err]) ∧
    (∀ (cfg : Option RestartConfig) (r : Nat) (msg : String) (ro : Bool)
        (rest : List IterEnv),
        cmdWaitGo cfg r (⟨.exited (some msg), true, ro⟩ :: rest) = [.publish (some msg)]) := by
  refine ⟨fun cfg r env => shapeOK_cmdWaitGo cfg env r,
    fun cfg r env => publishedErrs_take cfg env r, ?_, cmdWaitGo_interval_cancelled⟩
  intro cfg r err ic ro rest
  rfl

/-- The validation loop never panics on a batch whose commands all have
at least one token. -/
lemma checkCommands_no_panic (lookPath : String → Bool) :
    ∀ (commands : List (List String)), (∀ c ∈ commands, c ≠ []) →
      checkCommands lookPath commands ≠ .panic := by
  intro commands
  induction commands with
  | nil => intro _ h; simp [checkCommands] at h
  | cons args rest ih =>
    intro h
    cases args with
    | nil => exact absurd rfl (h [] (by simp))
    | cons a tl =>
      simp only [checkCommands]
      split
      · exact ih fun c hc => h c (List.mem_cons_of_mem _ hc)
      · simp

/-- The validation loop reports a not-found command iff some command's
leading token fails lookup (for batches with no empty command). -/
lemma checkCommands_notFound_iff (lookPath : String → Bool) :
    ∀ (commands : List (List String)), (∀ c ∈ commands, c ≠ []) →
      ((∃ s, checkCommands lookPath commands = .notFound s) ↔
        ∃ cmdl ∈ commands, lookPath (leadingToken (cmdl.headD "")) = false) := by
  intro commands
  induction commands with
  | nil => intro _; simp [checkCommands]
  | cons args rest ih =>
    intro h
    cases args with
    | nil => exact absurd rfl (h [] (by simp))
    | cons a tl =>
      simp only [checkCommands]
      by_cases hlp : lookPath (leadingToken a) = true
      · rw [if_pos hlp]
        rw [ih fun c hc => h c (List.mem_cons_of_mem _ hc)]
        constructor
        · rintro ⟨cmdl, hm, hf⟩
          exact ⟨cmdl, List.mem_cons_of_mem _ hm, hf⟩
        · rintro ⟨cmdl, hm, hf⟩
          rcases List.mem_cons.mp hm with rfl | hm'
          · simp only [List.headD_cons] at hf
            rw [hlp] at hf
            cases hf
          · exact ⟨cmdl, hm', hf⟩
      · rw [if_neg hlp]
        constructor
        · intro _
          exact ⟨a :: tl, by simp, by simpa using hlp⟩
        · intro _
          exact ⟨leadingToken a, rfl⟩

/-- Reaching an empty command with every earlier command non-empty and
resolving makes the validation loop panic. -/
lemma checkCommands_panic_at (lookPath : String → Bool) :
    ∀ (pre post : List (List String)),
      (∀ c ∈ pre, c ≠ [] ∧ lookPath (leadingToken (c.headD "")) = true) →
      checkCommands lookPath (pre ++ [] :: post) = .panic := by
  intro pre
  induction pre with
  | nil => intro post _; rfl
  | cons a rest ih =>
    intro post h
    obtain ⟨hne, hlp⟩ := h a (by simp)
    cases a with
    | nil => exact absurd rfl hne
    | cons x tl =>
      simp only [List.headD_cons] at hlp
      simp only [List.cons_append, checkCommands, hlp, if_true]
      exact ih post fun c hc => h c (List.mem_cons_of_mem _ hc)

/-- C4, counterexample: for the batch of two commands without
script-wrap whose first leading token does not resolve, New returns the
invalid-batch error, not the command-not-found error the claim's third
iff requires. -/
theorem C4_counterexample :
    NewGo (fun _ => false) { ioOK := true, name := "t" } [["a"], ["b"]]
        { runAsBashScript := false, envs := [], outputFile := none, restartConfig := none }
      = .err .invalidBatch ∧
    (fun (_ : String) => false) (leadingToken "a") = false ∧
    NewGo (fun _ => false) { ioOK := true, name := "t" } [["a"], ["b"]]
        { runAsBashScript := false, envs := [], outputFile := none, restartConfig := none }
      ≠ .err (.commandNotFound "a") := by
  refine ⟨by decide, rfl, by decide⟩

/-- C4, amended: for batches with no empty command, New returns the
no-commands error iff the batch is empty; the invalid-batch error iff
more than one command is given without script-wrap; and a
command-not-found error iff the two earlier checks pass (non-empty
batch, single command or script-wrap) and some command's leading token
does not resolve on the search path. On each of these errors no process
record is produced (the error and ok constructors are disjoint by
construction of NewResult). -/
theorem C4_amended (lookPath : String → Bool) (temp : TempEnv)
    (commands : List (List String)) (op : Op)
    (hne : ∀ c ∈ commands, c ≠ []) :
    (NewGo lookPath temp commands op = .err .noCommands ↔ commands = []) ∧
    (NewGo lookPath temp commands op = .err .invalidBatch ↔
      1 < commands.length ∧ op.runAsBashScript = false) ∧
    ((∃ s, NewGo lookPath temp commands op = .err (.commandNotFound s)) ↔
      (commands ≠ [] ∧ ¬(1 < commands.length ∧ op.runAsBashScript = false) ∧
        ∃ cmdl ∈ commands, lookPath (leadingToken (cmdl.headD "")) = false)) := by
  by_cases h0 : commands.length = 0
  · have hnil : commands = [] := List.length_eq_zero.mp h0
    subst hnil
    refine ⟨by simp [NewGo], by simp [NewGo], by simp [NewGo]⟩
  · have hnnil : commands ≠ [] := fun hn => h0 (by simp [hn])
    by_cases h1 : 1 < commands.length ∧ op.runAsBashScript = false
    · have hng : NewGo lookPath temp commands op = .err .invalidBatch := by
        simp [NewGo, h0, h1]
      rw [hng]
      refine ⟨by simp [hnnil], by simp [h1], ?_⟩
      simp [h1]
    · cases hcc : checkCommands lookPath commands with
      | panic => exact absurd hcc (checkCommands_no_panic lookPath commands hne)
      | notFound s =>
        have hng : NewGo lookPath temp commands op = .err (.commandNotFound s) := by
          simp [NewGo, h0, h1, hcc]
        rw [hng]
        refine ⟨by simp [hnnil], by simp [h1], ?_⟩
        constructor
        · intro _
          refine ⟨hnnil, h1, ?_⟩
          exact (checkCommands_notFound_iff lookPath commands hne).mp ⟨s, hcc⟩
        · intro _
          exact ⟨s, rfl⟩
      | ok =>
        have hnf : ¬ ∃ cmdl ∈ commands, lookPath (leadingToken (cmdl.headD "")) = false := by
          rw [← checkCommands_notFound_iff lookPath commands hne]
          rintro ⟨s, hs⟩
          rw [hcc] at hs
          cases hs
        by_cases h2 : op.runAsBashScript = true ∧ temp.ioOK = false
        · have hng : NewGo lookPath temp commands op = .err (.tempFile temp.name) := by
            simp [NewGo, h0, h1, hcc, h2]
          rw [hng]
          refine ⟨by simp [hnnil], by simp [h1], ?_⟩
          constructor
          · rintro ⟨s, hs⟩
            simp at hs
          · rintro ⟨-, -, hex⟩
            exact absurd hex hnf
        · have hng : ∃ p, NewGo lookPath temp commands op = .ok p := by
            simp only [NewGo, if_neg h0, if_neg h1, hcc, if_neg h2]
            exact ⟨_, rfl⟩
          obtain ⟨p, hp⟩ := hng
          rw [hp]
          refine ⟨by simp [hnnil], by simp [h1], ?_⟩
          constructor
          · rintro ⟨s, hs⟩
            simp at hs
          · rintro ⟨-, -, hex⟩
            exact absurd hex hnf

/-- C4, witness for the amended theorem: a single resolving command
triggers none of the three errors; an unresolvable single command
triggers exactly the command-not-found error. -/
theorem C4_witness :
    (NewGo (fun _ => true) { ioOK := true, name := "t" } [["echo", "hello"]]
        { runAsBashScript := false, envs := [], outputFile := none, restartConfig := none }
      = .err .noCommands ↔ ([["echo", "hello"]] : List (List String)) = []) ∧
    (∃ s, NewGo (fun _ => false) { ioOK := true, name := "t" } [["nosuch"]]
        { runAsBashScript := false, envs := [], outputFile := none, restartConfig := none }
      = .err (.commandNotFound s)) := by
  constructor
  · exact (C4_amended (fun _ => true) { ioOK := true, name := "t" } [["echo", "hello"]]
      { runAsBashScript := false, envs := [], outputFile := none, restartConfig := none }
      (by decide)).1
  · exact (C4_amended (fun _ => false) { ioOK := true, name := "t" } [["nosuch"]]
      { runAsBashScript := false, envs := [], outputFile := none, restartConfig := none }
      (by decide)).2.2.mpr ⟨by decide, by decide, ⟨["nosuch"], by simp, rfl⟩⟩

/-- The code's errc buffer size equals the spec's documented capacity
formula max(1, limit) in the enabled case, since the enabled case
requires a positive limit. -/
lemma errcBufferOf_eq_specCapacity (cfg : Option RestartConfig) :
    errcBufferOf cfg = specCapacity cfg := by
  cases cfg with
  | none => rfl
  | some c =>
    by_cases h : c.onError = true ∧ 0 < c.limit
    · simp only [errcBufferOf, specCapacity, if_pos h]
      omega
    · simp [errcBufferOf, specCapacity, h]

/-- C5: every successfully constructed process record has result-queue
capacity max(1, limit) — equal to the limit itself — when a restart
policy with onError and a positive limit is configured, and 1 in every
other case, exactly as specCapacity states. -/
theorem C5_queue_capacity (lookPath : String → Bool) (temp : TempEnv)
    (commands : List (List String)) (op : Op) (p : ProcessRec)
    (h : NewGo lookPath temp commands op = .ok p) :
    p.errcCap = specCapacity op.restartConfig := by
  unfold NewGo at h
  split at h
  · simp at h
  · split at h
    · simp at h
    · split at h
      · simp at h
      · simp at h
      · split at h
        · simp at h
        · simp only [NewResult.ok.injEq] at h
          rw [← h]
          exact errcBufferOf_eq_specCapacity op.restartConfig

/-- C5, witness: a concrete construction under policy
(onError, limit 3) yields capacity 3 = max(1, 3). -/
theorem C5_witness :
    ∃ p, NewGo (fun _ => true) { ioOK := true, name := "t" } [["echo", "hello"]]
        { runAsBashScript := false, envs := [], outputFile := none,
          restartConfig := some { onError := true, limit := 3, interval := 100 } } = .ok p ∧
      p.errcCap = 3 := by
  refine ⟨_, rfl, ?_⟩
  have h := C5_queue_capacity (fun _ => true) { ioOK := true, name := "t" }
    [["echo", "hello"]]
    { runAsBashScript := false, envs := [], outputFile := none,
      restartConfig := some { onError := true, limit := 3, interval := 100 } } _ rfl
  rw [h]
  decide

/-- C9, counterexample: a batch containing an empty command for which an
earlier command fails lookup returns the command-not-found construction
error — a documented-taxonomy error — and does not reach the
out-of-bounds index, refuting the claim's universal second half. -/
theorem C9_counterexample :
    NewGo (fun _ => false) { ioOK := true, name := "t" } [["a"], []]
        { runAsBashScript := true, envs := [], outputFile := none, restartConfig := none }
      = .err (.commandNotFound "a") ∧
    NewGo (fun _ => false) { ioOK := true, name := "t" } [["a"], []]
        { runAsBashScript := true, envs := [], outputFile := none, restartConfig := none }
      ≠ .panic := by
  constructor <;> decide

/-- C9, amended: New's path-resolution loop indexes each command's first
element without guarding against an empty command. For every non-empty
batch whose commands all have at least one token, the access is in
bounds and New never panics; and for a batch that passes the count
checks in which the first offending command (in iteration order) is an
empty one — every command before it is non-empty and resolves — the
index is out of bounds: New panics and returns no construction error of
the documented taxonomy. -/
theorem C9_amended :
    (∀ (lookPath : String → Bool) (temp : TempEnv) (commands : List (List String)) (op : Op),
        (∀ c ∈ commands, c ≠ []) →
        NewGo lookPath temp commands op ≠ .panic) ∧
    (∀ (lookPath : String → Bool) (temp : TempEnv) (pre post : List (List String)) (op : Op),
        ¬(1 < (pre ++ [] :: post).length ∧ op.runAsBashScript = false) →
        (∀ c ∈ pre, c ≠ [] ∧ lookPath (leadingToken (c.headD "")) = true) →
        NewGo lookPath temp (pre ++ [] :: post) op = .panic) := by
  constructor
  · intro lookPath temp commands op hne
    by_cases h0 : commands.length = 0
    · simp [NewGo, h0]
    · by_cases h1 : 1 < commands.length ∧ op.runAsBashScript = false
      · simp [NewGo, h0, h1]
      · cases hcc : checkCommands lookPath commands with
        | panic => exact absurd hcc (checkCommands_no_panic lookPath commands hne)
        | notFound s => simp [NewGo, h0, h1, hcc]
        | ok =>
          by_cases h2 : op.runAsBashScript = true ∧ temp.ioOK = false
          · simp [NewGo, h0, h1, hcc, h2]
          · simp [NewGo, h0, h1, hcc, h2]
  · intro lookPath temp pre post op h1 hpre
    have h0 : ¬ (pre ++ [] :: post).length = 0 := by simp
    have hcc := checkCommands_panic_at lookPath pre post hpre
    simp only [NewGo, if_neg h0, if_neg h1, hcc]

/-- C9, witness for the amended theorem: a wrapped batch whose first
command resolves and whose second command is empty makes New panic; a
batch of non-empty commands never does. -/
theorem C9_witness :
    NewGo (fun _ => true) { ioOK := true, name := "t" } [["sh", "-c"], []]
        { runAsBashScript := true, envs := [], outputFile := none, restartConfig := none }
      = .panic ∧
    NewGo (fun _ => true) { ioOK := true, name := "t" } [["sh", "-c"]]
        { runAsBashScript := true, envs := [], outputFile := none, restartConfig := none }
      ≠ .panic := by
  constructor
  · have h := C9_amended.2 (fun _ => true) { ioOK := true, name := "t" } [["sh", "-c"]] []
      { runAsBashScript := true, envs := [], outputFile := none, restartConfig := none }
      (by decide) (by decide)
    simpa using h
  · exact C9_amended.1 (fun _ => true) { ioOK := true, name := "t" } [["sh", "-c"]]
      { runAsBashScript := true, envs := [], outputFile := none, restartConfig := none }
      (by decide)

/-- C6: Start returns the already-started error exactly when a process
handle (cmd) already exists, leaving the record untouched in that case;
Stop returns the not-started error exactly when no handle exists,
leaving the record untouched in that case. Both are synchronous returns
in the source (no goroutine is launched on these paths). -/
theorem C6_start_stop_guards (env : SpawnEnv) (sig : SigOutcome)
    (ce re : Option String) (p : ProcessRec) :
    ((StartGo env p).2 = some .alreadyStarted ↔ p.cmd ≠ none) ∧
    (p.cmd ≠ none → (StartGo env p).1 = p) ∧
    ((StopGo sig ce re p).2 = some .notStarted ↔ p.cmd = none) ∧
    (p.cmd = none → (StopGo sig ce re p).1 = p) := by
  cases hc : p.cmd with
  | none =>
    refine ⟨?_, ?_, ?_, ?_⟩
    · simp only [StartGo, hc]
      constructor
      · intro h
        split at h <;> simp at h
      · intro h
        exact absurd rfl h
    · intro h
      exact absurd rfl h
    · simp [StopGo, hc]
    · intro _
      simp [StopGo, hc]
  | some u =>
    refine ⟨?_, ?_, ?_, ?_⟩
    · simp [StartGo, hc]
    · intro _
      simp [StartGo, hc]
    · simp only [StopGo, hc]
      constructor
      · intro h
        split at h
        · split at h
          · cases re <;> simp at h
          · simp at h
        · cases ce <;> simp at h
      · intro h
        simp at h
    · intro h
      simp at h

/-- C6, witness: a second Start on a record holding a handle fails with
the already-started error and changes nothing; Stop on a record with no
handle fails with the not-started error and changes nothing. -/
theorem C6_witness :
    (StartGo (okSpawn 9) startedProc).2 = some .alreadyStarted ∧
    (StartGo (okSpawn 9) startedProc).1 = startedProc ∧
    (StopGo .delivered none none sampleProc).2 = some .notStarted ∧
    (StopGo .delivered none none sampleProc).1 = sampleProc := by
  have h := C6_start_stop_guards (okSpawn 9) .delivered none none startedProc
  have h2 := C6_start_stop_guards (okSpawn 9) .delivered none none sampleProc
  exact ⟨h.1.mpr (by decide), h.2.1 (by decide), h2.2.2.1.mpr (by decide),
    h2.2.2.2 (by decide)⟩

/-- Each operation either leaves the pid slot unchanged and records no
spawn, or records exactly one accepted spawn and overwrites the pid slot
with that spawn's (int32-cast) pid. -/
lemma applyEvent_pid (p : ProcessRec) (e : OpEvent) :
    (spawnedPids p e = [] ∧ (applyEvent p e).pid = p.pid) ∨
    (∃ q, spawnedPids p e = [q] ∧ (applyEvent p e).pid = q) := by
  cases e with
  | start env =>
    cases hc : p.cmd with
    | some u =>
      left
      simp [applyEvent, StartGo, spawnedPids, hc]
    | none =>
      simp only [applyEvent, StartGo, spawnedPids, hc]
      cases ho : p.outputFile with
      | some f =>
        by_cases hs : env.startErr = true
        · left
          simp [startCommandGo, spawnAccepted, ho, hs]
        · right
          exact ⟨toInt32 env.osPid, by simp [startCommandGo, spawnAccepted, ho, hs]⟩
      | none =>
        by_cases hp : env.pipeFail = true
        · left
          simp [startCommandGo, spawnAccepted, ho, hp]
        · by_cases hs : env.startErr = true
          · left
            simp [startCommandGo, spawnAccepted, ho, hp, hs]
          · right
            exact ⟨toInt32 env.osPid,
              by simp [startCommandGo, spawnAccepted, ho, hp, hs]⟩
  | respawn env =>
    simp only [applyEvent, spawnedPids]
    cases ho : p.outputFile with
    | some f =>
      by_cases hs : env.startErr = true
      · left
        simp [startCommandGo, spawnAccepted, ho, hs]
      · right
        exact ⟨toInt32 env.osPid, by simp [startCommandGo, spawnAccepted, ho, hs]⟩
    | none =>
      by_cases hp : env.pipeFail = true
      · left
        simp [startCommandGo, spawnAccepted, ho, hp]
      · by_cases hs : env.startErr = true
        · left
          simp [startCommandGo, spawnAccepted, ho, hp, hs]
        · right
          exact ⟨toInt32 env.osPid,
            by simp [startCommandGo, spawnAccepted, ho, hp, hs]⟩
  | stop sig ce re =>
    left
    refine ⟨rfl, ?_⟩
    simp only [applyEvent, StopGo]
    cases hc : p.cmd with
    | none => simp only [hc]
    | some u =>
      simp only [hc]
      split
      · split <;> rfl
      · rfl
  | observeExit err =>
    left
    exact ⟨rfl, rfl⟩

/-- The pid slot after a run is the pid of the last accepted spawn, or
the initial value when no spawn was accepted. -/
lemma runEvents_pid (evs : List OpEvent) : ∀ (p : ProcessRec),
    (runEvents p evs).pid = (acceptedPids p evs).getLastD p.pid := by
  induction evs with
  | nil => intro p; rfl
  | cons e t ih =>
    intro p
    rcases applyEvent_pid p e with ⟨h1, h2⟩ | ⟨q, h1, h2⟩
    · simp only [runEvents, acceptedPids, h1, List.nil_append]
      rw [ih (applyEvent p e), h2]
    · simp only [runEvents, acceptedPids, h1, List.singleton_append,
        List.getLastD_cons]
      rw [ih (applyEvent p e), h2]

/-- The last element (with default) of a non-empty list is a member. -/
lemma getLastD_mem : ∀ (l : List Int) (d : Int), l ≠ [] → l.getLastD d ∈ l
  | [], _, h => absurd rfl h
  | [a], _, _ => by simp [List.getLastD]
  | a :: b :: t, d, _ => by
    rw [List.getLastD_cons]
    exact List.mem_cons_of_mem a (getLastD_mem (b :: t) a (by simp))

/-- C7: the pid slot of a freshly constructed record is 0 (the Go zero
value); along any run of operations it always equals the (int32-cast)
pid recorded by the most recently accepted spawn, with the initial value
while no spawn has been accepted (exit observations and Stop never reset
it); and when every accepted spawn carries a positive pid, the slot is
positive as soon as one spawn has been accepted. -/
theorem C7_pid_semantics :
    (∀ (lookPath : String → Bool) (temp : TempEnv) (commands : List (List String))
        (op : Op) (p : ProcessRec),
        NewGo lookPath temp commands op = .ok p → p.pid = 0) ∧
    (∀ (p : ProcessRec) (evs : List OpEvent),
        (runEvents p evs).pid = (acceptedPids p evs).getLastD p.pid) ∧
    (∀ (p : ProcessRec) (evs : List OpEvent), acceptedPids p evs = [] →
        (runEvents p evs).pid = p.pid) ∧
    (∀ (p : ProcessRec) (evs : List OpEvent),
        (∀ q ∈ acceptedPids p evs, 0 < q) → acceptedPids p evs ≠ [] →
        0 < (runEvents p evs).pid) := by
  refine ⟨?_, fun p evs => runEvents_pid evs p, ?_, ?_⟩
  · intro lookPath temp commands op p h
    unfold NewGo at h
    split at h
    · simp at h
    · split at h
      · simp at h
      · split at h
        · simp at h
        · simp at h
        · split at h
          · simp at h
          · simp only [NewResult.ok.injEq] at h
            rw [← h]
  · intro p evs h
    rw [runEvents_pid evs p, h]
    rfl
  · intro p evs hpos hne
    rw [runEvents_pid evs p]
    exact hpos _ (getLastD_mem _ _ hne)

/-- C7, witness: from the fresh record, one accepted spawn with OS pid
42 makes the slot positive, and a Stop leaves the slot at its prior
value. -/
theorem C7_witness :
    0 < (runEvents sampleProc [OpEvent.start (okSpawn 42)]).pid ∧
    (runEvents startedProc [OpEvent.stop .delivered none none]).pid = startedProc.pid := by
  constructor
  · exact C7_pid_semantics.2.2.2 sampleProc _ (by decide) (by decide)
  · exact C7_pid_semantics.2.2.1 startedProc _ (by decide)

/-- C8, counterexample: a successful Stop (returning nil because the
SIGTERM was delivered to a still-live process and the caller context is
alive) on a record with no script file does not reset the process
reference — refuting the claim that a successful Stop resets it exactly
when no script file was allocated. -/
theorem C8_counterexample :
    (StopGo .delivered none none startedProc).2 = none ∧
    startedProc.runBashFile = none ∧
    (StopGo .delivered none none startedProc).1.cmd ≠ none := by
  refine ⟨by decide, by decide, by decide⟩

/-- C8, amended: when Stop reaches its final cleanup step — i.e. the
termination signal reported the process already finished — it resets the
process reference to nil exactly when no script file was allocated: with
no script file the whole effect is cancelling the lifecycle and nilling
cmd, returning nil; with a script file Stop syncs, closes and deletes it,
returns the deletion result to the caller, modifies nothing beyond the
lifecycle flag (cmd stays non-nil, so a subsequent Start fails with the
already-started error). When the signal does not report already-finished,
Stop returns the caller context's error immediately after cancelling the
lifecycle, performing no cleanup at all. -/
theorem C8_amended (co re : Option String) (env : SpawnEnv) (p : ProcessRec)
    (h : p.cmd = some ()) :
    (p.runBashFile = none →
      StopGo .alreadyFinished co re p
        = ({ p with ctxCancelled := true, cmd := none }, none)) ∧
    (∀ f, p.runBashFile = some f →
      (StopGo .alreadyFinished co re p).1 = { p with ctxCancelled := true } ∧
      (StopGo .alreadyFinished co re p).2 = re.map .removeErr ∧
      (StartGo env (StopGo .alreadyFinished co re p).1).2 = some .alreadyStarted) ∧
    (∀ sig, sig ≠ .alreadyFinished →
      StopGo sig co re p = ({ p with ctxCancelled := true }, co.map .ctxErr)) := by
  refine ⟨?_, ?_, ?_⟩
  · intro hb
    simp [StopGo, h, hb]
  · intro f hb
    refine ⟨?_, ?_, ?_⟩
    · simp [StopGo, h, hb]
    · simp [StopGo, h, hb]
    · simp [StopGo, StartGo, h, hb]
  · intro sig hs
    simp [StopGo, h, hs]

/-- C8, witness: on the script-wrap path the deletion error is returned
and cmd stays non-nil; on the plain path cmd is reset to nil. -/
theorem C8_witness :
    (StopGo .alreadyFinished none (some "unlinkat: permission denied") bashProc).2
      = some (.removeErr "unlinkat: permission denied") ∧
    (StopGo .alreadyFinished none (some "unlinkat: permission denied") bashProc).1.cmd
      ≠ none ∧
    (StopGo .alreadyFinished none none startedProc).1.cmd = none := by
  have hb := (C8_amended none (some "unlinkat: permission denied")
    (okSpawn 1) bashProc rfl).2.1 "/tmp/tmpbash123.bash" rfl
  have hn := (C8_amended none none (okSpawn 1) startedProc rfl).1 rfl
  refine ⟨hb.2.1, ?_, ?_⟩
  · rw [hb.1]
    decide
  · rw [hn]

/-- startCommand touches neither the errc history nor the closed flag. -/
lemma startCommandGo_errc (env : SpawnEnv) (p : ProcessRec) :
    (startCommandGo env p).1.errcClosed = p.errcClosed ∧
    (startCommandGo env p).1.errcSent = p.errcSent := by
  unfold startCommandGo
  split
  · split <;> exact ⟨rfl, rfl⟩
  · split
    · exact ⟨rfl, rfl⟩
    · split <;> exact ⟨rfl, rfl⟩

/-- One operation never closes the errc channel, and appends to its
history exactly the value of an exit observation (nothing otherwise). -/
lemma applyEvent_errc (p : ProcessRec) (e : OpEvent) :
    (applyEvent p e).errcClosed = p.errcClosed ∧
    (applyEvent p e).errcSent = p.errcSent ++ observedErrs [e] := by
  cases e with
  | start env =>
    simp only [applyEvent, StartGo, observedErrs, List.append_nil]
    cases hc : p.cmd with
    | some u =>
      simp only [hc]
      exact ⟨trivial, trivial⟩
    | none =>
      simp only [hc]
      have h := startCommandGo_errc env { p with ctxCancelled := false }
      constructor
      · split <;> exact h.1
      · split <;> exact h.2
  | stop sig ce re =>
    simp only [applyEvent, StopGo, observedErrs, List.append_nil]
    cases hc : p.cmd with
    | none =>
      simp only [hc]
      exact ⟨trivial, trivial⟩
    | some u =>
      simp only [hc]
      constructor
      · split
        · split <;> rfl
        · rfl
      · split
        · split <;> rfl
        · rfl
  | observeExit err =>
    exact ⟨rfl, rfl⟩
  | respawn env =>
    simp only [applyEvent, observedErrs, List.append_nil]
    exact startCommandGo_errc env p

/-- The exit observations of a run split off its head event. -/
lemma observedErrs_cons (e : OpEvent) (t : List OpEvent) :
    observedErrs (e :: t) = observedErrs [e] ++ observedErrs t := by
  cases e <;> rfl

/-- Along any run the errc channel is never closed and its history grows
by exactly the observed exit errors. -/
lemma runEvents_errc (evs : List OpEvent) : ∀ (p : ProcessRec),
    (runEvents p evs).errcClosed = p.errcClosed ∧
    (runEvents p evs).errcSent = p.errcSent ++ observedErrs evs := by
  induction evs with
  | nil => intro p; exact ⟨rfl, by simp [runEvents, observedErrs]⟩
  | cons e t ih =>
    intro p
    obtain ⟨h1, h2⟩ := applyEvent_errc p e
    obtain ⟨ih1, ih2⟩ := ih (applyEvent p e)
    constructor
    · simp only [runEvents]
      rw [ih1, h1]
    · simp only [runEvents]
      rw [ih2, h2, observedErrs_cons e t, List.append_assoc]

/-- The watcher publishes at most one report per available attempt. -/
lemma publishCount_le (cfg : Option RestartConfig) :
    ∀ (env : List IterEnv) (r : Nat), publishCount (cmdWaitGo cfg r env) ≤ env.length := by
  intro env
  induction env with
  | nil => intro r; simp [cmdWaitGo, publishCount, publishedErrs]
  | cons iter rest ih =>
    intro r
    obtain ⟨w, ic, ro⟩ := iter
    cases w with
    | cancelled e => simp [cmdWaitGo, publishCount, publishedErrs]
    | exited e =>
      rcases cmdWaitGo_exited_cases cfg r e ic ro rest with h | h
      · rw [h]
        simp [publishCount, publishedErrs]
      · rw [h]
        have hr := ih (r + 1)
        simp only [publishCount, publishedErrs, List.length_cons] at hr ⊢
        omega

/-- C10: a freshly constructed record's errc channel is open with an
empty history; no operation of the supervisor ever closes it (the
closed flag is invariant along every run); the history grows by exactly
one value per observed attempt exit; and the watcher publishes at most
one report per attempt, so a receive beyond the number of completed
attempts never yields a value. -/
theorem C10_wait_channel :
    (∀ (lookPath : String → Bool) (temp : TempEnv) (commands : List (List String))
        (op : Op) (p : ProcessRec), NewGo lookPath temp commands op = .ok p →
        p.errcClosed = false ∧ p.errcSent = []) ∧
    (∀ (p : ProcessRec) (evs : List OpEvent),
        (runEvents p evs).errcClosed = p.errcClosed ∧
        (runEvents p evs).errcSent = p.errcSent ++ observedErrs evs) ∧
    (∀ (cfg : Option RestartConfig) (r : Nat) (env : List IterEnv),
        publishCount (cmdWaitGo cfg r env) ≤ env.length) := by
  refine ⟨?_, fun p evs => runEvents_errc evs p, fun cfg r env => publishCount_le cfg env r⟩
  intro lookPath temp commands op p h
  unfold NewGo at h
  split at h
  · simp at h
  · split at h
    · simp at h
    · split at h
      · simp at h
      · simp at h
      · split at h
        · simp at h
        · simp only [NewResult.ok.injEq] at h
          rw [← h]
          exact ⟨rfl, rfl⟩

/-- C10, witness: a concrete construction yields an open, empty channel,
and a run with two exit observations sends exactly those two values
without closing it. -/
theorem C10_witness :
    (∃ p, NewGo (fun _ => true) { ioOK := true, name := "t" } [["echo", "hello"]]
        { runAsBashScript := false, envs := [], outputFile := none, restartConfig := none }
      = .ok p ∧ p.errcClosed = false ∧ p.errcSent = []) ∧
    (runEvents sampleProc [OpEvent.start (okSpawn 5),
        OpEvent.observeExit (some "exit status 1"),
        OpEvent.observeExit none]).errcClosed = false ∧
    (runEvents sampleProc [OpEvent.start (okSpawn 5),
        OpEvent.observeExit (some "exit status 1"),
        OpEvent.observeExit none]).errcSent = [some "exit status 1", none] := by
  have h := C10_wait_channel.2.1 sampleProc [OpEvent.start (okSpawn 5),
    OpEvent.observeExit (some "exit status 1"), OpEvent.observeExit none]
  refine ⟨⟨_, rfl, ?_⟩, h.1.trans (by decide), h.2.trans (by decide)⟩
  exact C10_wait_channel.1 (fun _ => true) { ioOK := true, name := "t" }
    [["echo", "hello"]]
    { runAsBashScript := false, envs := [], outputFile := none, restartConfig := none }
    _ rfl

end Gpud
